import Mathlib

/-!
Verification of the resilience subsystem of `@kitiumai/playwright-helpers`
(circuit breaker, timeout manager, retry controller, chaos injector, and the
`withResilience` composer), shallowly embedded from the TypeScript source.

Timestamps and durations are modelled as `Int` milliseconds (JS `Date.now()`
values); failure counters as `Nat` (they are only ever incremented from 0 or
decremented under a positivity guard, so JS number arithmetic coincides).
-/

namespace PlaywrightHelpers

/-- Errors thrown by the subsystem, structured by the payload that actually
appears in each `new Error(...)` message template of the source. `opError`
stands for an arbitrary error raised by the wrapped operation itself. -/
inductive JsError where
  | circuitOpenError (failureCount threshold : Nat)
  | timeoutError (timeoutMs : Int)
  | opError (tag : Nat)
  | unknownRetryError
  | progressiveExhausted
deriving DecidableEq, Repr

/-- The exact message string each error carries in the source
(template literals in `part_000` and `retry.ts`). -/
def JsError.message : JsError → String
  | .circuitOpenError fc thr =>
      "Circuit breaker is open. Too many failures (" ++ toString fc ++ "/" ++ toString thr ++ ")"
  | .timeoutError ms => "Operation timed out after " ++ toString ms ++ "ms"
  | .opError tag => "operation error " ++ toString tag
  | .unknownRetryError => "Retry failed with unknown error"
  | .progressiveExhausted => "Operation failed after all timeout attempts"

/-- `CircuitBreakerState` from the source: 'closed' | 'open' | 'half-open'. -/
inductive CBState where
  | closed
  | opened
  | halfOpen
deriving DecidableEq, Repr

/-- `Required<CircuitBreakerOptions>` as resolved by the constructor:
`halfOpenTimeout` defaults to `timeout / 2` when absent. -/
structure CircuitBreakerOptions where
  threshold : Nat
  timeout : Int
  halfOpenTimeout : Int
deriving DecidableEq, Repr

/-- The constructor's option resolution:
`{ halfOpenTimeout: options.timeout / 2, ...options }`. -/
def mkBreakerOptions (threshold : Nat) (timeout : Int) (halfOpenTimeout : Option Int) :
    CircuitBreakerOptions :=
  { threshold := threshold, timeout := timeout,
    halfOpenTimeout := halfOpenTimeout.getD (timeout / 2) }

/-- The mutable fields of a `CircuitBreaker` instance. -/
structure Breaker where
  state : CBState
  failureCount : Nat
  lastFailureTime : Option Int
deriving DecidableEq, Repr

/-- Initial breaker: `state = 'closed'`, `failureCount = 0`,
`lastFailureTime = null`. -/
def Breaker.init : Breaker := ⟨.closed, 0, none⟩

/-- JS truthiness of `this.lastFailureTime`: `null` and `0` are falsy. -/
def timeTruthy : Option Int → Bool
  | some t => t != 0
  | none => false

/-- `CircuitBreaker.checkState` (lines 64-82): lazily transitions
Open → HalfOpen once `now - lastFailureTime >= timeout`, and
HalfOpen → Closed (resetting `failureCount`) once
`now - lastFailureTime >= halfOpenTimeout`. -/
def checkState (o : CircuitBreakerOptions) (b : Breaker) (now : Int) : Breaker :=
  if b.state = .opened ∧ timeTruthy b.lastFailureTime then
    if now - (b.lastFailureTime.getD 0) ≥ o.timeout then
      { b with state := .halfOpen }
    else b
  else if b.state = .halfOpen ∧ timeTruthy b.lastFailureTime then
    if now - (b.lastFailureTime.getD 0) ≥ o.halfOpenTimeout then
      { b with state := .closed, failureCount := 0 }
    else b
  else b

/-- `CircuitBreaker.onSuccess` (lines 84-92): HalfOpen success fully resets;
a Closed success with a positive count decays it by one
(`Math.max(0, failureCount - 1)` under the `failureCount > 0` guard). -/
def onSuccess (b : Breaker) : Breaker :=
  if b.state = .halfOpen then
    { b with state := .closed, failureCount := 0 }
  else if b.failureCount > 0 then
    { b with failureCount := b.failureCount - 1 }
  else b

/-- `CircuitBreaker.onFailure` (lines 94-106): increment the count, refresh
`lastFailureTime`, and open once the count reaches the threshold. -/
def onFailure (o : CircuitBreakerOptions) (b : Breaker) (now : Int) : Breaker :=
  let b1 := { b with failureCount := b.failureCount + 1, lastFailureTime := some now }
  if b1.failureCount ≥ o.threshold then { b1 with state := .opened } else b1

/-- Observable outcome of one `execute` call. -/
inductive ExecOutcome (α : Type) where
  | ok (a : α)
  | circuitOpenRejected (failureCount threshold : Nat)
  | failed (e : JsError)
deriving DecidableEq, Repr

/-- Result of one `execute` call: the updated breaker, the outcome, and
whether the wrapped operation was invoked at all. -/
structure ExecResult (α : Type) where
  breaker : Breaker
  outcome : ExecOutcome α
  invoked : Bool
deriving DecidableEq, Repr

/-- `CircuitBreaker.execute` (lines 39-62): run `checkState`, reject without
invoking the operation while Open, otherwise invoke it and record the
outcome. `opResult` is the outcome the operation would produce if invoked
(`Date.now()` is modelled as the single call time `now`). -/
def execute (o : CircuitBreakerOptions) (b : Breaker) (now : Int)
    (opResult : Except JsError α) : ExecResult α :=
  let b1 := checkState o b now
  if b1.state = .opened then
    ⟨b1, .circuitOpenRejected b1.failureCount o.threshold, false⟩
  else
    match opResult with
    | .ok a => ⟨onSuccess b1, .ok a, true⟩
    | .error e => ⟨onFailure o b1 now, .failed e, true⟩

/-- One always-failing `execute` call, keeping only the breaker state. -/
def failStep (o : CircuitBreakerOptions) (b : Breaker) (t : Int) : Breaker :=
  (execute o b t (Except.error (JsError.opError 0) : Except JsError Unit)).breaker

/-- A sequence of consecutive failing `execute` calls at the given times. -/
def runFailures (o : CircuitBreakerOptions) (b : Breaker) (ts : List Int) : Breaker :=
  ts.foldl (failStep o) b

/-- `CircuitBreaker.getState` (lines 111-114): forces the lazy re-evaluation
and returns the state; the breaker mutation is the `checkState` result. -/
def getState (o : CircuitBreakerOptions) (b : Breaker) (now : Int) : CBState × Breaker :=
  ((checkState o b now).state, checkState o b now)

/-! ### Timeout manager (`TimeoutManager`, lines 130-199) -/

/-- Events performed by the `setTimeout` callback of `withTimeout`
(lines 146-163), in execution order: log the timeout with the measured
duration, invoke `onTimeout` when present, then reject — unless `onTimeout`
itself rejected, in which case the `void handleTimeout()` promise dies with
an unhandled rejection and the `reject(...)` line is never reached. -/
inductive TimerEvent where
  | logged (timeoutMs duration : Int)
  | onTimeoutInvoked
  | rejected (e : JsError)
deriving DecidableEq, Repr

/-- The timer branch of `withTimeout`: `handleTimeout` as the source writes
it. `present`/`rejects` describe the optional `onTimeout` callback. -/
def handleTimeout (timeoutMs startTime now : Int) (present rejects : Bool) :
    List TimerEvent :=
  [.logged timeoutMs (now - startTime)]
    ++ (if present then [.onTimeoutInvoked] else [])
    ++ (if present && rejects then [] else [.rejected (.timeoutError timeoutMs)])

/-- The rejection the timer branch actually issues, if any. -/
def timerRejection (evts : List TimerEvent) : Option JsError :=
  evts.findSome? fun e =>
    match e with
    | .rejected err => some err
    | _ => none

/-- The durations the timer branch logged (diagnostics only). -/
def loggedDurations (evts : List TimerEvent) : List Int :=
  evts.filterMap fun e =>
    match e with
    | .logged _ d => some d
    | _ => none

/-- Decidable equality for `Except`, needed to evaluate outcomes. -/
instance {ε α : Type} [DecidableEq ε] [DecidableEq α] : DecidableEq (Except ε α)
  | .error a, .error b =>
    if h : a = b then .isTrue (congrArg Except.error h)
    else .isFalse fun hc => h (Except.error.inj hc)
  | .error _, .ok _ => .isFalse fun hc => Except.noConfusion hc
  | .ok _, .error _ => .isFalse fun hc => Except.noConfusion hc
  | .ok a, .ok b =>
    if h : a = b then .isTrue (congrArg Except.ok h)
    else .isFalse fun hc => h (Except.ok.inj hc)

/-- Behaviour of one invocation of an asynchronous operation: it settles
after `elapsed` milliseconds with a result, or never settles (`none`). -/
structure OpRun (α : Type) where
  settle : Option (Int × Except JsError α)
deriving DecidableEq, Repr

/-- Outcome of the `Promise.race` in `withTimeout`. -/
inductive TResult (α : Type) where
  | settled (elapsed : Int) (r : Except JsError α)
  | hangs
deriving DecidableEq, Repr

/-- Full account of one `withTimeout` call: the settled outcome of the
returned promise, whether the timer branch decided it, and the timer
branch's events (empty when the operation wins before the timer fires). -/
structure TimeoutRun (α : Type) where
  result : TResult α
  timerWon : Bool
  events : List TimerEvent
deriving DecidableEq, Repr

/-- `TimeoutManager.withTimeout` (lines 136-166): races `operation()`
against a `setTimeout` of `timeoutMs`. The operation wins if it settles
within `timeoutMs`; otherwise the timer fires at elapsed `timeoutMs` and
runs `handleTimeout`. When `handleTimeout` issues no rejection (the
`onTimeout` callback rejected first), the race is decided solely by the
operation's own settlement. -/
def withTimeout (op : OpRun α) (timeoutMs : Int) (present rejects : Bool) :
    TimeoutRun α :=
  match op.settle with
  | some (e, r) =>
    if e ≤ timeoutMs then
      { result := .settled e r, timerWon := false, events := [] }
    else
      let evts := handleTimeout timeoutMs 0 timeoutMs present rejects
      match timerRejection evts with
      | some err =>
        { result := .settled timeoutMs (.error err), timerWon := true, events := evts }
      | none =>
        { result := .settled e r, timerWon := false, events := evts }
  | none =>
    let evts := handleTimeout timeoutMs 0 timeoutMs present rejects
    match timerRejection evts with
    | some err =>
      { result := .settled timeoutMs (.error err), timerWon := true, events := evts }
    | none =>
      { result := .hangs, timerWon := false, events := evts }

/-- Boolean phrasing of "the operation settled within `durationMs`". -/
def settledWithin (op : OpRun α) (d : Int) : Bool :=
  match op.settle with
  | some (e, _) => e ≤ d
  | none => false

/-- The timeout selected for attempt `attempt` by `withProgressiveTimeout`
(line 182): `timeouts[attempt] ?? timeouts[timeouts.length - 1] ?? 30000`. -/
def selectTimeout (timeouts : List Int) (attempt : Nat) : Int :=
  ((timeouts.get? attempt).getD ((timeouts.get? (timeouts.length - 1)).getD 30000))

/-- Outcome of a `withProgressiveTimeout` call. -/
inductive PResult (α : Type) where
  | ok (a : α)
  | err (e : JsError)
  | hangs
deriving DecidableEq, Repr

/-- The settled result of attempt `k` of `withProgressiveTimeout`:
`withTimeout` on the `k`-th invocation of the operation with the selected
timeout; the wrapper passed as `onTimeout` is an async closure that never
rejects, so the callback is present and fulfilling. -/
def attemptResult (op : Nat → OpRun α) (timeouts : List Int) (k : Nat) : TResult α :=
  (withTimeout (op k) (selectTimeout timeouts k) true false).result

/-- The loop body of `withProgressiveTimeout` (lines 178-195): try attempts
in order, return the first success, record `sleep(1000 * (attempt + 1))`
after each failed non-final attempt, and on exhaustion rethrow the last
error. Returns (sleep durations, attempts made, outcome). -/
def progressiveRun (op : Nat → OpRun α) (timeouts : List Int) :
    Nat → Nat → Option JsError → List Int × Nat × PResult α
  | _, 0, lastErr => ([], 0, .err (lastErr.getD .progressiveExhausted))
  | attempt, remaining + 1, _ =>
    match attemptResult op timeouts attempt with
    | .settled _ (.ok a) => ([], 1, .ok a)
    | .settled _ (.error e) =>
      if remaining = 0 then ([], 1, .err e)
      else
        let rest := progressiveRun op timeouts (attempt + 1) remaining (some e)
        ((1000 : Int) * (attempt + 1) :: rest.1, rest.2.1 + 1, rest.2.2)
    | .hangs => ([], 1, .hangs)

/-- `TimeoutManager.withProgressiveTimeout` (lines 171-198). -/
def withProgressiveTimeout (op : Nat → OpRun α) (timeouts : List Int) :
    List Int × Nat × PResult α :=
  progressiveRun op timeouts 0 timeouts.length none

/-! ### Retry controller (`src/utils/retry.ts`) -/

/-- `RetryOptions` of `retry.ts` (all fields optional); `hasOnRetry` records
whether an `onRetry` callback was supplied. -/
structure RetryOptionsTs where
  maxAttempts : Option Nat
  initialDelayMs : Option Int
  maxDelayMs : Option Int
  backoffMultiplier : Option Int
  hasOnRetry : Bool
deriving DecidableEq, Repr

/-- Modelled from the spec: `retry` from `@kitiumai/test-core` is an external
package not under `src/`; section 4.3 specifies it: the attempt counter
starts at 1; on failure at `attempt = maxAttempts` the last failure is
propagated unmodified; otherwise it sleeps `delay * backoff ^ (attempt - 1)`
and retries. `op` maps the number of prior invocations to the outcome.
Returns (sleep durations, invocation count, final result). -/
def retryCoreRun (op : Nat → Except JsError α) (delay backoff : Int) :
    Nat → Nat → Nat → List Int × Nat × Except JsError α
  | 0, _, _ => ([], 0, .error .unknownRetryError)
  | remaining + 1, attempt, invoked =>
    match op invoked with
    | .ok a => ([], 1, .ok a)
    | .error e =>
      if remaining = 0 then ([], 1, .error e)
      else
        let d := delay * backoff ^ (attempt - 1)
        let rest := retryCoreRun op delay backoff remaining (attempt + 1) (invoked + 1)
        (d :: rest.1, rest.2.1 + 1, rest.2.2)

/-- Modelled from the spec: entry point of the `@kitiumai/test-core` retry. -/
def retryCore (op : Nat → Except JsError α) (maxAttempts : Nat) (delay backoff : Int) :
    List Int × Nat × Except JsError α :=
  retryCoreRun op delay backoff maxAttempts 1 0

/-- The fallback loop of `retryWithBackoffLegacy` (`retry.ts` lines 49-69):
attempts `1..maxAttempts`; after each non-final failure it sleeps the
current `delay` and then updates `delay = min(delay * backoffMultiplier,
maxDelayMs)`. Returns (sleep durations, invocation count, final result). -/
def legacyRun (op : Nat → Except JsError α) (mult maxDelay : Int) :
    Nat → Nat → Int → List Int × Nat × Except JsError α
  | 0, _, _ => ([], 0, .error .unknownRetryError)
  | remaining + 1, invoked, delay =>
    match op invoked with
    | .ok a => ([], 1, .ok a)
    | .error e =>
      if remaining = 0 then ([], 1, .error e)
      else
        let rest := legacyRun op mult maxDelay remaining (invoked + 1)
          (min (delay * mult) maxDelay)
        (delay :: rest.1, rest.2.1 + 1, rest.2.2)

/-- `retryWithBackoffLegacy` (`retry.ts` lines 24-70): when no `onRetry`
callback is given and `backoffMultiplier === 2`, delegate to the test-core
`retry` with `delay = initialDelayMs ?? 100`; otherwise run the legacy loop
with defaults `maxAttempts = 3`, `initialDelayMs = 100`, `maxDelayMs = 5000`,
`backoffMultiplier = 2`. -/
def retryWithBackoffLegacy (op : Nat → Except JsError α) (o : RetryOptionsTs) :
    List Int × Nat × Except JsError α :=
  if ¬ o.hasOnRetry ∧ o.backoffMultiplier = some 2 then
    retryCore op (o.maxAttempts.getD 3) (o.initialDelayMs.getD 100) 2
  else
    legacyRun op (o.backoffMultiplier.getD 2) (o.maxDelayMs.getD 5000)
      (o.maxAttempts.getD 3) 0 (o.initialDelayMs.getD 100)

/-! ### Chaos injector (`ChaosInjector`, lines 204-299) -/

/-- The interception handlers the injector installs. -/
inductive ChaosHandler where
  | abortAll
  | delayThenContinue (ms : Int)
  | randomAbort
  | serverError (status : Int)
deriving DecidableEq, Repr

/-- One installed interception rule: a URL pattern plus its handler. -/
structure RouteRule where
  pattern : String
  handler : ChaosHandler
deriving DecidableEq, Repr

/-- `page.route(pattern, handler)`: Playwright prepends, so the most recent
registration is consulted first. -/
def pageRoute (rules : List RouteRule) (r : RouteRule) : List RouteRule :=
  r :: rules

/-- `page.unroute(pattern)`: removes every rule registered with exactly this
pattern. -/
def pageUnroute (rules : List RouteRule) (pat : String) : List RouteRule :=
  rules.filter fun r => r.pattern ≠ pat

/-- `ChaosInjector.restore` (lines 295-298): `page.unroute('**/*')`. -/
def restore (rules : List RouteRule) : List RouteRule :=
  pageUnroute rules "**/*"

/-- `ChaosInjector.simulateNetworkFailure` (lines 215-229), run to
completion: `page.route('**/*', abort)`, `sleep(durationMs)`,
`page.unroute('**/*')`. The duration only controls the sleep. -/
def simulateNetworkFailure (rules : List RouteRule) (durationMs : Int) : List RouteRule :=
  let _ := durationMs
  pageUnroute (pageRoute rules ⟨"**/*", .abortAll⟩) "**/*"

/-- Whether a registered pattern matches a request URL; the injector only
ever registers the match-everything glob. -/
def patMatches (pat url : String) : Bool :=
  pat = "**/*" || pat = url

/-- Route dispatch: the first matching rule handles the request; `none`
means the request reaches the real network handler. -/
def dispatch (rules : List RouteRule) (url : String) : Option ChaosHandler :=
  (rules.find? fun r => patMatches r.pattern url).map (·.handler)

/-! ### Resilience composer (`withResilience`, lines 322-359) -/

/-- The `retry` field of `ResilienceOptions`: `{maxAttempts?, delayMs?,
backoff?}`; the `backoff` flag is accepted but never read by the source. -/
structure ResRetryOptions where
  maxAttempts : Option Nat
  delayMs : Option Int
  backoff : Option Bool
deriving DecidableEq, Repr

/-- `ResilienceOptions` (chaos config is orthogonal and not part of the
wrap, lines 333-358 never read it). -/
structure ResilienceOptions where
  circuitBreaker : Option CircuitBreakerOptions
  timeout : Option Int
  retry : Option ResRetryOptions
deriving DecidableEq, Repr

/-- The shape of the callable `withResilience` builds: each constructor is
one wrapping layer around the original operation. -/
inductive WrappedOp where
  | base
  | breakerWrap (o : CircuitBreakerOptions) (inner : WrappedOp)
  | timeoutWrap (ms : Int) (inner : WrappedOp)
  | retryWrap (maxAttempts : Nat) (delayMs : Int) (inner : WrappedOp)
deriving DecidableEq, Repr

/-- The wrapping performed by `withResilience` (lines 333-356): start from
the bare operation; wrap a breaker if `options.circuitBreaker` is present;
wrap a timeout if `options.timeout` is truthy (`if (options.timeout)`, so a
configured 0 installs nothing); wrap a retry (maxAttempts default 3, delayMs
default 1000, backoff fixed at 2) if `options.retry` is present. -/
def withResilienceWrap (o : ResilienceOptions) : WrappedOp :=
  let w := WrappedOp.base
  let w := match o.circuitBreaker with
    | some cb => WrappedOp.breakerWrap cb w
    | none => w
  let w := match o.timeout with
    | some t => if t ≠ 0 then WrappedOp.timeoutWrap t w else w
    | none => w
  let w := match o.retry with
    | some r => WrappedOp.retryWrap (r.maxAttempts.getD 3) (r.delayMs.getD 1000) w
    | none => w
  w

/-- Whether a timeout layer occurs anywhere in a wrapped callable. -/
def hasTimeoutLayer : WrappedOp → Bool
  | .base => false
  | .breakerWrap _ w => hasTimeoutLayer w
  | .timeoutWrap _ _ => true
  | .retryWrap _ _ w => hasTimeoutLayer w

/-- Environment for running a wrapped callable: the behaviour of the `k`-th
invocation of the base operation, as (duration, outcome); in this model the
base operation always settles. -/
structure Env (α : Type) where
  op : Nat → Int × Except JsError α

/-- Execution state threaded through a run: base-op invocations so far, the
current clock, and the breaker instance created by the composer. -/
structure RunSt where
  k : Nat
  now : Int
  breaker : Breaker
deriving DecidableEq, Repr

/-- Running the bare operation: one invocation, advancing the clock by its
duration and returning its own outcome. -/
def baseStep (env : Env α) (st : RunSt) : RunSt × Except JsError α :=
  let p := env.op st.k
  ({ st with k := st.k + 1, now := st.now + p.1 }, p.2)

/-- Semantics of a wrapped callable, fuel-indexed (`none` = out of fuel).
The breaker layer follows `CircuitBreaker.execute`; the timeout layer keeps
the inner run's state effects (the losing branch still executes in the
background) but replaces the outcome and settles the race at the deadline;
the retry layer is modelled from the spec (test-core `retry`, backoff 2 as
the composer passes it): the stored delay is the current sleep, doubling
between attempts, and each attempt re-runs the entire inner stack. -/
def runW (env : Env α) : Nat → WrappedOp → RunSt → Option (RunSt × Except JsError α)
  | 0, _, _ => none
  | _ + 1, .base, st => some (baseStep env st)
  | fuel + 1, .breakerWrap o inner, st =>
    let b1 := checkState o st.breaker st.now
    if b1.state = .opened then
      some ({ st with breaker := b1 },
        .error (.circuitOpenError b1.failureCount o.threshold))
    else
      match runW env fuel inner { st with breaker := b1 } with
      | none => none
      | some (st2, .ok a) => some ({ st2 with breaker := onSuccess st2.breaker }, .ok a)
      | some (st2, .error e) =>
        some ({ st2 with breaker := onFailure o st2.breaker st2.now }, .error e)
  | fuel + 1, .timeoutWrap ms inner, st =>
    match runW env fuel inner st with
    | none => none
    | some (st2, r) =>
      if st2.now - st.now ≤ ms then some (st2, r)
      else some ({ st2 with now := st.now + ms }, .error (.timeoutError ms))
  | fuel + 1, .retryWrap n d inner, st =>
    match n with
    | 0 => some (st, .error .unknownRetryError)
    | 1 => runW env fuel inner st
    | m + 2 =>
      match runW env fuel inner st with
      | none => none
      | some (st2, .ok a) => some (st2, .ok a)
      | some (st2, .error _) =>
        runW env fuel (.retryWrap (m + 1) (d * 2) inner) { st2 with now := st2.now + d }

/-- Invariant of an all-failures call sequence after `k` calls: either the
breaker is still Closed with exactly `k` recorded failures below the
threshold, or it is Open with at least `threshold` failures and a nonzero
last-failure timestamp. -/
def Inv (o : CircuitBreakerOptions) (k : Nat) (b : Breaker) : Prop :=
  (b.state = .closed ∧ b.failureCount = k ∧ k < o.threshold ∧
    (b.lastFailureTime = none ∨ ∃ t, b.lastFailureTime = some t ∧ t ≠ 0))
  ∨ (b.state = .opened ∧ o.threshold ≤ b.failureCount ∧
    ∃ t, b.lastFailureTime = some t ∧ t ≠ 0)

/-- The sleep sequence of the legacy retry loop, exactly as iterated by the
source: sleep the current delay, then update it to
`min(delay * backoffMultiplier, maxDelayMs)`. -/
def iterDelays (mult cap : Int) : Int → Nat → List Int
  | _, 0 => []
  | d, m + 1 => d :: iterDelays mult cap (min (d * mult) cap) m

end PlaywrightHelpers

namespace PlaywrightHelpers

/-! ## Helper lemmas -/

theorem checkState_of_closed (o : CircuitBreakerOptions) (b : Breaker) (now : Int)
    (h : b.state = .closed) : checkState o b now = b := by
  simp [checkState, h]

theorem checkState_open_not_expired (o : CircuitBreakerOptions) (b : Breaker)
    (now t : Int) (hs : b.state = .opened) (hl : b.lastFailureTime = some t)
    (ht : t ≠ 0) (hlt : now - t < o.timeout) : checkState o b now = b := by
  simp [checkState, hs, hl, timeTruthy, ht, not_le.mpr hlt]

theorem execute_open_fast_reject (o : CircuitBreakerOptions) (b : Breaker)
    (now t : Int) (opRes : Except JsError Unit) (hs : b.state = .opened)
    (hl : b.lastFailureTime = some t) (ht : t ≠ 0) (hlt : now - t < o.timeout) :
    execute o b now opRes = ⟨b, .circuitOpenRejected b.failureCount o.threshold, false⟩ := by
  simp [execute, checkState_open_not_expired o b now t hs hl ht hlt, hs]

theorem inv_step (o : CircuitBreakerOptions) (k : Nat) (b : Breaker) (t : Int)
    (ht : t ≠ 0) (h : Inv o k b) : Inv o (k + 1) (failStep o b t) := by
  rcases h with ⟨hs, hc, hlt, _⟩ | ⟨hs, hc, t0, hl, ht0⟩
  · have hcs : checkState o b t = b := checkState_of_closed o b t hs
    unfold failStep execute
    rw [hcs]
    simp only [hs]
    rw [if_neg (by simp)]
    unfold onFailure
    rw [hc]
    by_cases hth : o.threshold ≤ k + 1
    · rw [if_pos hth]
      right
      exact ⟨rfl, hth, t, rfl, ht⟩
    · rw [if_neg hth]
      left
      exact ⟨hs, rfl, by omega, Or.inr ⟨t, rfl, ht⟩⟩
  · unfold failStep execute
    by_cases hexp : t - t0 ≥ o.timeout
    · have hcs : checkState o b t = { b with state := .halfOpen } := by
        simp [checkState, hs, hl, timeTruthy, ht0, hexp]
      rw [hcs]
      rw [if_neg (by simp)]
      unfold onFailure
      have hth : o.threshold ≤ b.failureCount + 1 := by omega
      rw [if_pos (by simpa using hth)]
      right
      exact ⟨rfl, by simpa using hth, t, rfl, ht⟩
    · have hcs : checkState o b t = b :=
        checkState_open_not_expired o b t t0 hs hl ht0 (by omega)
      rw [hcs]
      rw [if_pos hs]
      right
      exact ⟨hs, hc, t0, hl, ht0⟩

theorem inv_fold (o : CircuitBreakerOptions) :
    ∀ (ts : List Int) (k : Nat) (b : Breaker), Inv o k b → (∀ t ∈ ts, t ≠ 0) →
      Inv o (k + ts.length) (ts.foldl (failStep o) b) := by
  intro ts
  induction ts with
  | nil => intro k b h _; simpa using h
  | cons t ts ih =>
    intro k b h hts
    have h1 : Inv o (k + 1) (failStep o b t) := inv_step o k b t (hts t (by simp)) h
    have h2 := ih (k + 1) (failStep o b t) h1 (fun u hu => hts u (by simp [hu]))
    simpa [Nat.add_comm, Nat.add_assoc, Nat.add_left_comm] using h2

/-! ## Claim theorems -/

/-- C1: for every breaker with positive threshold starting Closed, after
`N ≥ threshold` consecutive failed executions (at arbitrary nonzero call
times) the state is Open with at least `threshold` recorded failures, and
every subsequent `execute` call made while `now - lastFailureTime <
openTimeout` rejects with the circuit-open error without invoking the
operation and with the breaker (failureCount, lastFailureTime, state)
left unchanged. -/
theorem circuitBreaker_opens_then_fails_fast
    (o : CircuitBreakerOptions) (ts : List Int) (hthr : 0 < o.threshold)
    (hts : ∀ t ∈ ts, t ≠ 0) (hlen : o.threshold ≤ ts.length) :
    (runFailures o Breaker.init ts).state = .opened ∧
    o.threshold ≤ (runFailures o Breaker.init ts).failureCount ∧
    ∃ t : Int, (runFailures o Breaker.init ts).lastFailureTime = some t ∧ t ≠ 0 ∧
      ∀ (now : Int) (opRes : Except JsError Unit), now - t < o.timeout →
        execute o (runFailures o Breaker.init ts) now opRes =
          ⟨runFailures o Breaker.init ts,
            .circuitOpenRejected (runFailures o Breaker.init ts).failureCount o.threshold,
            false⟩ := by
  have h0 : Inv o 0 Breaker.init :=
    Or.inl ⟨rfl, rfl, hthr, Or.inl rfl⟩
  have hinv : Inv o (0 + ts.length) (ts.foldl (failStep o) Breaker.init) :=
    inv_fold o ts 0 Breaker.init h0 hts
  rw [Nat.zero_add] at hinv
  have hinv2 : Inv o ts.length (runFailures o Breaker.init ts) := hinv
  rcases hinv2 with ⟨_, hc, hlt, _⟩ | ⟨hs, hc, t, hl, ht⟩
  · omega
  · refine ⟨hs, hc, t, hl, ht, fun now opRes hlt => ?_⟩
    exact execute_open_fast_reject o _ now t opRes hs hl ht hlt

/-- Witness for C1 at the concrete scenario of the spec: threshold 2,
openTimeout 1000, two failures at times 100 and 200, then a call at 300. -/
theorem circuitBreaker_opens_then_fails_fast_witness :
    (runFailures ⟨2, 1000, 500⟩ Breaker.init [100, 200]).state = .opened := by
  exact (circuitBreaker_opens_then_fails_fast ⟨2, 1000, 500⟩ [100, 200]
    (by decide) (by decide) (by decide)).1

/-- C4 counterexample: the claim says an unprobed expired HalfOpen window
never transitions to Closed by mere passage of time, but after two failures
(times 100, 200; threshold 2, openTimeout 1000, halfOpenTimeout 500) a
`getState` at 1200 observes HalfOpen and a second `getState` at 1250 — with
no operation outcome recorded in between — observes Closed with
failureCount reset to 0. -/
theorem halfOpen_window_autocloses_counterexample :
    (getState ⟨2, 1000, 500⟩ (runFailures ⟨2, 1000, 500⟩ Breaker.init [100, 200]) 1200).1 =
      CBState.halfOpen ∧
    (getState ⟨2, 1000, 500⟩
      (getState ⟨2, 1000, 500⟩ (runFailures ⟨2, 1000, 500⟩ Breaker.init [100, 200]) 1200).2
      1250).1 = CBState.closed ∧
    (getState ⟨2, 1000, 500⟩
      (getState ⟨2, 1000, 500⟩ (runFailures ⟨2, 1000, 500⟩ Breaker.init [100, 200]) 1200).2
      1250).2.failureCount = 0 := by
  exact ⟨rfl, rfl, rfl⟩

/-- C4 amended: a HalfOpen breaker with a nonzero `lastFailureTime = t`
auto-reverts to Closed, resetting `failureCount` to 0, at the next lazy
re-evaluation (`getState`/`execute`) whose time satisfies
`now - t ≥ halfOpenTimeout`, with no probe outcome recorded. -/
theorem checkState_halfOpen_expiry_closes
    (o : CircuitBreakerOptions) (b : Breaker) (now t : Int)
    (hs : b.state = .halfOpen) (hl : b.lastFailureTime = some t) (ht : t ≠ 0)
    (hexp : o.halfOpenTimeout ≤ now - t) :
    checkState o b now = ⟨.closed, 0, some t⟩ := by
  have h1 : ¬ (b.state = .opened ∧ timeTruthy b.lastFailureTime) := by
    simp [hs]
  rw [checkState, if_neg h1,
    if_pos ⟨hs, by simp [hl, timeTruthy, ht]⟩, if_pos (by simp [hl]; omega)]
  simp [hl]

/-- Witness for C4's amended theorem at the concrete breaker reached above. -/
theorem checkState_halfOpen_expiry_closes_witness :
    checkState ⟨2, 1000, 500⟩ ⟨.halfOpen, 2, some 200⟩ 1250 = ⟨.closed, 0, some 200⟩ := by
  exact checkState_halfOpen_expiry_closes ⟨2, 1000, 500⟩ ⟨.halfOpen, 2, some 200⟩ 1250 200
    rfl rfl (by decide) (by decide)

/-- C5: a success recorded while HalfOpen resets `failureCount` to 0 and
closes the breaker regardless of the prior count, while a success recorded
while Closed with positive count only decrements it by one. -/
theorem onSuccess_halfOpen_resets_closed_decays (b : Breaker) :
    (b.state = .halfOpen → onSuccess b = ⟨.closed, 0, b.lastFailureTime⟩) ∧
    (b.state = .closed → 0 < b.failureCount →
      onSuccess b = ⟨.closed, b.failureCount - 1, b.lastFailureTime⟩) := by
  obtain ⟨s, c, l⟩ := b
  constructor
  · intro hs
    cases hs
    simp [onSuccess]
  · intro hs hc
    cases hs
    simp only [onSuccess]
    rw [if_neg (by simp), if_pos hc]

/-- Witness for C5: a HalfOpen success with count 5 fully resets; a Closed
success with count 3 decays to 2. -/
theorem onSuccess_halfOpen_resets_closed_decays_witness :
    onSuccess ⟨.halfOpen, 5, some 7⟩ = ⟨.closed, 0, some 7⟩ ∧
    onSuccess ⟨.closed, 3, some 7⟩ = ⟨.closed, 2, some 7⟩ := by
  exact ⟨(onSuccess_halfOpen_resets_closed_decays ⟨.halfOpen, 5, some 7⟩).1 rfl,
    (onSuccess_halfOpen_resets_closed_decays ⟨.closed, 3, some 7⟩).2 rfl (by decide)⟩

/-- C3 counterexample: two timer firings with the same configured duration
(100ms) but different actual elapsed times (150ms vs 250ms) log different
durations yet reject with the identical error value and message, so the
rejected TimeoutError cannot carry the actual elapsed time — only the
configured duration appears in it. -/
theorem timeoutError_lacks_elapsed_counterexample :
    timerRejection (handleTimeout 100 0 150 false false) = some (.timeoutError 100) ∧
    timerRejection (handleTimeout 100 0 250 false false) = some (.timeoutError 100) ∧
    loggedDurations (handleTimeout 100 0 150 false false) = [150] ∧
    loggedDurations (handleTimeout 100 0 250 false false) = [250] ∧
    JsError.message (.timeoutError 100) = "Operation timed out after 100ms" ∧
    (150 : Int) ≠ 250 := by
  exact ⟨rfl, rfl, rfl, rfl, rfl, by decide⟩

/-- C3 amended: provided the `onTimeout` callback (when present) does not
itself reject, `withTimeout` rejects with a TimeoutError iff the operation
has not settled within `timeoutMs`; it never rejects with a TimeoutError
when the operation settles within the deadline; and when the timer fires
first it logs, invokes `onTimeout` (if present) before rejecting, and the
rejected TimeoutError carries the configured duration only (the actual
elapsed time is logged, not attached to the error). -/
theorem withTimeout_semantics {α : Type} (op : OpRun α) (d : Int) (present : Bool) :
    ((withTimeout op d present false).timerWon = true ↔ settledWithin op d = false) ∧
    (∀ (e : Int) (r : Except JsError α), op.settle = some (e, r) → e ≤ d →
      withTimeout op d present false = ⟨.settled e r, false, []⟩) ∧
    ((withTimeout op d present false).timerWon = true →
      (withTimeout op d present false).result = .settled d (.error (.timeoutError d)) ∧
      (withTimeout op d present false).events =
        [.logged d d] ++ (if present then [TimerEvent.onTimeoutInvoked] else [])
          ++ [.rejected (.timeoutError d)]) := by
  obtain ⟨s⟩ := op
  rcases s with _ | ⟨e, r⟩
  · have hrej : timerRejection (handleTimeout d 0 d present false) =
        some (.timeoutError d) := by
      cases present <;> rfl
    refine ⟨?_, ?_, ?_⟩
    · simp [withTimeout, hrej, settledWithin]
    · intro e r h
      cases h
    · intro _
      constructor
      · simp [withTimeout, hrej]
      · cases present <;>
          simp [withTimeout, timerRejection, handleTimeout, List.findSome?]
  · by_cases he : e ≤ d
    · refine ⟨?_, ?_, ?_⟩
      · simp [withTimeout, he, settledWithin]
      · intro e2 r2 h h2
        cases h
        simp [withTimeout, he]
      · intro hw
        exfalso
        simp [withTimeout, he] at hw
    · have hrej : timerRejection (handleTimeout d 0 d present false) =
          some (.timeoutError d) := by
        cases present <;> rfl
      refine ⟨?_, ?_, ?_⟩
      · simp [withTimeout, he, hrej, settledWithin]
      · intro e2 r2 h h2
        cases h
        exact absurd h2 he
      · intro _
        constructor
        · simp [withTimeout, he, hrej]
        · cases present <;>
            simp [withTimeout, he, timerRejection, handleTimeout, List.findSome?]

/-- Witness for C3's amended theorem: an operation settling at 30ms under a
100ms deadline wins the race untouched; one settling at 150ms loses it and
the returned promise settles at the deadline with the TimeoutError. -/
theorem withTimeout_semantics_witness :
    withTimeout (⟨some (30, Except.ok ())⟩ : OpRun Unit) 100 true false =
      ⟨.settled 30 (.ok ()), false, []⟩ ∧
    (withTimeout (⟨some (150, Except.ok ())⟩ : OpRun Unit) 100 true false).result =
      .settled 100 (.error (.timeoutError 100)) := by
  exact ⟨(withTimeout_semantics (⟨some (30, Except.ok ())⟩ : OpRun Unit) 100 true).2.1
      30 (Except.ok ()) rfl (by decide),
    ((withTimeout_semantics (⟨some (150, Except.ok ())⟩ : OpRun Unit) 100 true).2.2
      (by decide)).1⟩

/-- C10: when the `onTimeout` callback rejects as the timer fires, the
timer branch never issues its rejection (no TimeoutError), the timer never
decides the race, and the returned promise's outcome is determined solely
by the operation's own eventual settlement. -/
theorem withTimeout_onTimeout_rejection_skips_reject {α : Type} (op : OpRun α) (d : Int) :
    (withTimeout op d true true).timerWon = false ∧
    timerRejection (withTimeout op d true true).events = none ∧
    (withTimeout op d true true).result =
      (match op.settle with
       | some (e, r) => TResult.settled e r
       | none => TResult.hangs) := by
  obtain ⟨s⟩ := op
  rcases s with _ | ⟨e, r⟩
  · exact ⟨rfl, rfl, rfl⟩
  · by_cases he : e ≤ d
    · refine ⟨?_, ?_, ?_⟩ <;> simp [withTimeout, he, timerRejection]
    · refine ⟨?_, ?_, ?_⟩ <;> simp [withTimeout, he, timerRejection, handleTimeout]

/-- C8: `restore()` is idempotent, removes every rule the injector installs
(they all use the `'**/*'` pattern), and after a completed
`simulateNetworkFailure` followed by `restore()` on an initially clean page
zero rules remain and every request reaches the real handler. -/
theorem chaos_restore_removes_all_and_idempotent :
    (∀ rules : List RouteRule, restore (restore rules) = restore rules) ∧
    (∀ (rules : List RouteRule) (r : RouteRule), r ∈ restore rules →
      r.pattern ≠ "**/*") ∧
    restore (simulateNetworkFailure [] 5000) = [] ∧
    (∀ url : String, dispatch (restore (simulateNetworkFailure [] 5000)) url = none) := by
  refine ⟨?_, ?_, rfl, fun url => rfl⟩
  · intro rules
    simp [restore, pageUnroute, List.filter_filter]
  · intro rules r hr
    have := List.of_mem_filter hr
    simpa using this

/-- Witness for C8: a user rule with a different pattern survives restore
and is indeed not the injector's pattern. -/
theorem chaos_restore_removes_all_and_idempotent_witness :
    (⟨"http://a", .abortAll⟩ : RouteRule).pattern ≠ "**/*" := by
  exact chaos_restore_removes_all_and_idempotent.2.1 [⟨"http://a", .abortAll⟩]
    ⟨"http://a", .abortAll⟩ (by decide)

/-- C9: the composer's timeout layer is installed only for truthy timeout
values — a configured `timeout: 0` is falsy in `if (options.timeout)`, so
it installs no timeout layer and the built callable is identical to the one
built with the field absent. -/
theorem withResilience_timeout_zero_is_absent
    (cb : Option CircuitBreakerOptions) (t : Option Int) (r : Option ResRetryOptions) :
    hasTimeoutLayer (withResilienceWrap ⟨cb, t, r⟩) =
      (match t with
       | some v => v != 0
       | none => false) ∧
    withResilienceWrap ⟨cb, some 0, r⟩ = withResilienceWrap ⟨cb, none, r⟩ := by
  constructor
  · rcases t with _ | v
    · rcases cb with _ | c <;> rcases r with _ | rr <;>
        simp [withResilienceWrap, hasTimeoutLayer]
    · by_cases hv : v = 0
      · rcases cb with _ | c <;> rcases r with _ | rr <;>
          simp [withResilienceWrap, hasTimeoutLayer, hv]
      · rcases cb with _ | c <;> rcases r with _ | rr <;>
          simp [withResilienceWrap, hasTimeoutLayer, hv]
  · rcases cb with _ | c <;> rcases r with _ | rr <;>
      simp [withResilienceWrap]

theorem iterDelays_closed_form (mult cap : Int) (hm : 1 ≤ mult) :
    ∀ (m : Nat) (base : Int), 0 ≤ base → base ≤ cap →
      iterDelays mult cap base m = (List.range m).map fun j => min (base * mult ^ j) cap := by
  intro m
  induction m with
  | zero => intro base _ _; rfl
  | succ m ih =>
    intro base hb hbc
    have hcap : 0 ≤ cap := le_trans hb hbc
    have hb2 : 0 ≤ base * mult := mul_nonneg hb (le_trans zero_le_one hm)
    rw [iterDelays, ih (min (base * mult) cap) (le_min hb2 hcap) (min_le_right _ _),
      List.range_succ_eq_map, List.map_cons, List.map_map]
    congr 1
    · simp [min_eq_left hbc]
    · refine congrArg (fun f => List.map f (List.range m)) (funext fun j => ?_)
      have hpow : (1 : Int) ≤ mult ^ j := by
        simpa using pow_le_pow_left₀ zero_le_one hm j
      by_cases hc : base * mult ≤ cap
      · rw [min_eq_left hc]
        have : base * mult * mult ^ j = base * mult ^ (j + 1) := by ring
        simp [this]
      · push_neg at hc
        rw [min_eq_right (le_of_lt hc)]
        have h1 : cap ≤ cap * mult ^ j := le_mul_of_one_le_right hcap hpow
        have h2 : cap ≤ base * mult ^ (j + 1) := by
          have he : base * mult ^ (j + 1) = base * mult * mult ^ j := by ring
          rw [he]
          calc cap ≤ cap * mult ^ j := h1
            _ ≤ base * mult * mult ^ j :=
              mul_le_mul_of_nonneg_right (le_of_lt hc) (by positivity)
        simp [min_eq_right h1, min_eq_right h2]

theorem legacyRun_always_fail (e : JsError) (mult cap : Int) :
    ∀ (m i : Nat) (base : Int),
      legacyRun (fun _ => (Except.error e : Except JsError Unit)) mult cap (m + 1) i base =
        (iterDelays mult cap base m, m + 1, Except.error e) := by
  intro m
  induction m with
  | zero => intro i base; rfl
  | succ m ih =>
    intro i base
    rw [legacyRun]
    simp only [Nat.succ_ne_zero, if_false, ih (i + 1) (min (base * mult) cap)]
    rfl

theorem retryCoreRun_always_fail (e : JsError) (delay backoff : Int) :
    ∀ (m attempt invoked : Nat), 1 ≤ attempt →
      retryCoreRun (fun _ => (Except.error e : Except JsError Unit))
          delay backoff (m + 1) attempt invoked =
        ((List.range m).map (fun j => delay * backoff ^ (attempt - 1 + j)),
          m + 1, Except.error e) := by
  intro m
  induction m with
  | zero => intro attempt invoked _; rfl
  | succ m ih =>
    intro attempt invoked ha
    rw [retryCoreRun]
    simp only [Nat.succ_ne_zero, if_false,
      ih (attempt + 1) (invoked + 1) (by omega)]
    rw [List.range_succ_eq_map, List.map_cons, List.map_map]
    refine congrArg (fun l => Prod.mk l (m + 1 + 1, (Except.error e : Except JsError Unit))) ?_
    congr 1
    refine congrArg (fun f => List.map f (List.range m)) (funext fun j => ?_)
    simp only [Function.comp]
    have h : attempt + 1 - 1 + j = attempt - 1 + (j + 1) := by omega
    rw [h]

theorem retryCoreRun_invocations_le {α : Type} (op : Nat → Except JsError α)
    (delay backoff : Int) :
    ∀ (m attempt invoked : Nat),
      (retryCoreRun op delay backoff m attempt invoked).2.1 ≤ m := by
  intro m
  induction m with
  | zero => intro attempt invoked; simp [retryCoreRun]
  | succ m ih =>
    intro attempt invoked
    rw [retryCoreRun]
    cases h : op invoked with
    | ok a => simp
    | error e =>
      by_cases hm : m = 0
      · simp [hm]
      · simp only [hm, if_false]
        have := ih (attempt + 1) (invoked + 1)
        simp
        omega

theorem legacyRun_invocations_le {α : Type} (op : Nat → Except JsError α)
    (mult maxDelay : Int) :
    ∀ (m invoked : Nat) (delay : Int),
      (legacyRun op mult maxDelay m invoked delay).2.1 ≤ m := by
  intro m
  induction m with
  | zero => intro invoked delay; simp [legacyRun]
  | succ m ih =>
    intro invoked delay
    rw [legacyRun]
    cases h : op invoked with
    | ok a => simp
    | error e =>
      by_cases hm : m = 0
      · simp [hm]
      · simp only [hm, if_false]
        have := ih (invoked + 1) (min (delay * mult) maxDelay)
        simp
        omega

/-- C6 counterexample: the legacy retry path caps each updated delay at
`maxDelayMs` (default 5000), so with `initialDelayMs = 1000`,
`backoffMultiplier = 3`, `maxAttempts = 4` against an always-failing
operation the inter-attempt sleeps are 1000, 3000, 5000 — not the claimed
`baseDelay * backoffMultiplier ^ (k-1)` sequence 1000, 3000, 9000. -/
theorem retry_delay_capped_counterexample :
    retryWithBackoffLegacy (fun _ => (Except.error (JsError.opError 7) : Except JsError Unit))
        ⟨some 4, some 1000, none, some 3, false⟩ =
      ([1000, 3000, 5000], 4, Except.error (JsError.opError 7)) ∧
    (1000 : Int) * 3 ^ 2 = 9000 ∧
    ([1000, 3000, 5000] : List Int) ≠ [1000, 3000, 9000] := by
  exact ⟨by decide, by decide, by decide⟩

/-- C6 amended: the retry controller makes at most `maxAttempts` attempts
(counter starting at 1) and, against an always-failing operation, exactly
`maxAttempts` invocations, propagating the last failure unmodified. Between
attempts `k` and `k+1` the delegated test-core path (no `onRetry`,
`backoffMultiplier` exactly 2) sleeps `baseDelay * 2 ^ (k-1)` uncapped,
while the legacy fallback sleeps `min(baseDelay * backoffMultiplier ^ (k-1),
maxDelayMs)` (for `baseDelay ≤ maxDelayMs`); with maxAttempts 3, delay 100,
backoff 2 the delays are 100ms then 200ms. -/
theorem retry_backoff_delay_behaviour
    (e : JsError) (n : Nat) (base cap mult : Int)
    (hn : 1 ≤ n) (hb : 0 ≤ base) (hbc : base ≤ cap) (hm : 1 ≤ mult) (hm2 : mult ≠ 2) :
    (retryWithBackoffLegacy (fun _ => (Except.error e : Except JsError Unit))
        ⟨some n, some base, some cap, some mult, false⟩ =
      ((List.range (n - 1)).map (fun j => min (base * mult ^ j) cap),
        n, Except.error e)) ∧
    (retryWithBackoffLegacy (fun _ => (Except.error e : Except JsError Unit))
        ⟨some n, some base, some cap, some 2, false⟩ =
      ((List.range (n - 1)).map (fun j => base * 2 ^ j), n, Except.error e)) ∧
    (∀ {α : Type} (op : Nat → Except JsError α) (o : RetryOptionsTs),
      (retryWithBackoffLegacy op o).2.1 ≤ o.maxAttempts.getD 3) := by
  obtain ⟨m, rfl⟩ : ∃ m, n = m + 1 := ⟨n - 1, by omega⟩
  refine ⟨?_, ?_, ?_⟩
  · rw [retryWithBackoffLegacy, if_neg (by simp [hm2])]
    simp only [Option.getD_some]
    rw [legacyRun_always_fail e mult cap m 0 base,
      iterDelays_closed_form mult cap hm m base hb hbc]
    simp
  · rw [retryWithBackoffLegacy, if_pos (by simp), retryCore]
    simp only [Option.getD_some]
    rw [retryCoreRun_always_fail e base 2 m 1 0 (by omega)]
    simp
  · intro α op o
    rw [retryWithBackoffLegacy]
    by_cases hc : ¬ o.hasOnRetry ∧ o.backoffMultiplier = some 2
    · rw [if_pos hc, retryCore]
      exact retryCoreRun_invocations_le op (o.initialDelayMs.getD 100) 2 _ 1 0
    · rw [if_neg hc]
      exact legacyRun_invocations_le op (o.backoffMultiplier.getD 2) (o.maxDelayMs.getD 5000)
        _ 0 (o.initialDelayMs.getD 100)

/-- Witness for C6's amended theorem at the spec's concrete scenario:
maxAttempts 3, delay 100, backoff 2 (delegated path) against an
always-failing operation — three invocations, sleeps 100 then 200. -/
theorem retry_backoff_delay_behaviour_witness :
    retryWithBackoffLegacy (fun _ => (Except.error (JsError.opError 7) : Except JsError Unit))
        ⟨some 3, some 100, some 5000, some 2, false⟩ =
      ((List.range 2).map (fun j => (100 : Int) * 2 ^ j), 3,
        Except.error (JsError.opError 7)) := by
  exact (retry_backoff_delay_behaviour (JsError.opError 7) 3 100 5000 3
    (by decide) (by decide) (by decide) (by decide) (by decide)).2.1

theorem progressiveRun_all_fail {α : Type} (op : Nat → OpRun α) (timeouts : List Int)
    (tAt : Nat → Int) (errAt : Nat → JsError) :
    ∀ (m a : Nat) (lastE : Option JsError), 1 ≤ m → a + m = timeouts.length →
      (∀ j, a ≤ j → j < timeouts.length →
        attemptResult op timeouts j = .settled (tAt j) (.error (errAt j))) →
      progressiveRun op timeouts a m lastE =
        ((List.range' a (m - 1)).map (fun j : Nat => (1000 : Int) * (j + 1)), m,
          .err (errAt (timeouts.length - 1))) := by
  intro m
  induction m with
  | zero => intro a lastE h0 _ _; omega
  | succ m ih =>
    intro a lastE _ hlen hall
    have ha : a < timeouts.length := by omega
    by_cases hm : m = 0
    · subst hm
      have hlast : timeouts.length - 1 = a := by omega
      rw [progressiveRun]
      simp [hall a (le_refl a) ha, hlast, List.range']
    · obtain ⟨m2, rfl⟩ : ∃ m2, m = m2 + 1 := ⟨m - 1, by omega⟩
      have hih := ih (a + 1) (some (errAt a)) (by omega) (by omega)
        (fun j hj1 hj2 => hall j (by omega) hj2)
      rw [progressiveRun]
      simp only [hall a (le_refl a) ha]
      rw [if_neg hm]
      simp only [hih]
      have hr : List.range' a (m2 + 1 + 1 - 1) = a :: List.range' (a + 1) m2 :=
        List.range'_succ a m2 1
      rw [hr, List.map_cons]
      simp [Nat.add_sub_cancel]

theorem progressiveRun_first_success {α : Type} (op : Nat → OpRun α) (timeouts : List Int)
    (tAt : Nat → Int) (errAt : Nat → JsError) (v : α) (t0 : Int) (i : Nat) :
    ∀ (m a : Nat) (lastE : Option JsError), a + m = timeouts.length → a ≤ i →
      i < timeouts.length →
      (∀ j, a ≤ j → j < i →
        attemptResult op timeouts j = .settled (tAt j) (.error (errAt j))) →
      attemptResult op timeouts i = .settled t0 (.ok v) →
      progressiveRun op timeouts a m lastE =
        ((List.range' a (i - a)).map (fun j : Nat => (1000 : Int) * (j + 1)),
          i - a + 1, .ok v) := by
  intro m
  induction m with
  | zero => intro a lastE hlen hai hi _ _; omega
  | succ m ih =>
    intro a lastE hlen hai hi hfail hsucc
    rcases Nat.eq_or_lt_of_le hai with heq | hlt
    · subst heq
      rw [progressiveRun]
      simp [hsucc, List.range']
    · have hm : m ≠ 0 := by omega
      have hih := ih (a + 1) (some (errAt a)) (by omega) (by omega) hi
        (fun j hj1 hj2 => hfail j (by omega) hj2) hsucc
      rw [progressiveRun]
      simp only [hfail a (le_refl a) hlt]
      rw [if_neg hm]
      simp only [hih]
      have hia : i - a = (i - (a + 1)) + 1 := by omega
      rw [hia, List.range'_succ a (i - (a + 1)) 1, List.map_cons]

/-- C7: `withProgressiveTimeout` attempts `withTimeout` sequentially over
the ordered duration list (attempt `k` uses `durations[k]`), returns the
first successful result, sleeps the linearly increasing delay
`1000 * (attemptIndex + 1)` between failed attempts, re-throws the failure
of the final attempt on exhaustion, and its duration-selection expression
reuses the final element of `durations` as the ceiling for any attempt
index beyond the list. -/
theorem withProgressiveTimeout_behaviour {α : Type} (op : Nat → OpRun α)
    (timeouts : List Int) (tAt : Nat → Int) (errAt : Nat → JsError) :
    (∀ (i : Nat) (v : α) (t0 : Int), i < timeouts.length →
      (∀ j, j < i → attemptResult op timeouts j = .settled (tAt j) (.error (errAt j))) →
      attemptResult op timeouts i = .settled t0 (.ok v) →
      withProgressiveTimeout op timeouts =
        ((List.range' 0 i).map (fun j : Nat => (1000 : Int) * (j + 1)), i + 1, .ok v)) ∧
    (1 ≤ timeouts.length →
      (∀ j, j < timeouts.length →
        attemptResult op timeouts j = .settled (tAt j) (.error (errAt j))) →
      withProgressiveTimeout op timeouts =
        ((List.range' 0 (timeouts.length - 1)).map (fun j : Nat => (1000 : Int) * (j + 1)),
          timeouts.length, .err (errAt (timeouts.length - 1)))) ∧
    (∀ (k : Nat) (h : k < timeouts.length),
      selectTimeout timeouts k = timeouts.get ⟨k, h⟩) ∧
    (∀ k, timeouts ≠ [] → timeouts.length ≤ k →
      selectTimeout timeouts k = selectTimeout timeouts (timeouts.length - 1)) := by
  refine ⟨?_, ?_, ?_, ?_⟩
  · intro i v t0 hi hfail hsucc
    exact progressiveRun_first_success op timeouts tAt errAt v t0 i timeouts.length 0
      none (Nat.zero_add _) (Nat.zero_le i) hi (fun j _ hj2 => hfail j hj2) hsucc
  · intro hlen hall
    exact progressiveRun_all_fail op timeouts tAt errAt timeouts.length 0 none hlen
      (Nat.zero_add _) (fun j _ hj2 => hall j hj2)
  · intro k h
    simp [selectTimeout, List.getElem?_eq_getElem h]
  · intro k hne hk
    have hpos : 0 < timeouts.length := List.length_pos.mpr hne
    have hlast : timeouts.length - 1 < timeouts.length := by omega
    simp [selectTimeout, List.getElem?_eq_none hk, List.getElem?_eq_getElem hlast]

/-- Witness for C7: with durations [50, 100], attempt 0 (operation settling
at 999ms) times out at 50ms, then after a 1000ms sleep attempt 1 settles at
10ms and its value is returned; a selection beyond the list reuses the
final duration. -/
theorem withProgressiveTimeout_behaviour_witness :
    withProgressiveTimeout
        (fun k => if k = 0 then (⟨some (999, Except.ok ())⟩ : OpRun Unit)
          else ⟨some (10, Except.ok ())⟩) [50, 100] =
      ((List.range' 0 1).map (fun j : Nat => (1000 : Int) * (j + 1)), 2, .ok ()) ∧
    selectTimeout [50, 100] 7 = selectTimeout [50, 100] 1 := by
  refine ⟨?_, ?_⟩
  · exact (withProgressiveTimeout_behaviour
      (fun k => if k = 0 then (⟨some (999, Except.ok ())⟩ : OpRun Unit)
        else ⟨some (10, Except.ok ())⟩) [50, 100]
      (fun _ => 50) (fun _ => JsError.timeoutError 50)).1 1 () 10
      (by decide) (by decide) (by decide)
  · exact (withProgressiveTimeout_behaviour
      (fun k => if k = 0 then (⟨some (999, Except.ok ())⟩ : OpRun Unit)
        else ⟨some (10, Except.ok ())⟩) [50, 100]
      (fun _ => 50) (fun _ => JsError.timeoutError 50)).2.2.2 7 (by decide) (by decide)

/-- C2: `withResilience` composes the enabled layers in the fixed order
CircuitBreaker innermost, then Timeout, then Retry outermost (so each retry
attempt re-runs the whole breaker+timeout stack, per the retry layer's
semantics in `runW`); every absent config field leaves no layer of its kind
in the built callable, and the empty config builds the bare operation,
whose run is exactly one invocation of the operation with its own outcome. -/
theorem withResilience_fixed_order_and_passthrough
    (cb : CircuitBreakerOptions) (t : Int) (r : ResRetryOptions) (ht : t ≠ 0) :
    (withResilienceWrap ⟨some cb, some t, some r⟩ =
      .retryWrap (r.maxAttempts.getD 3) (r.delayMs.getD 1000)
        (.timeoutWrap t (.breakerWrap cb .base))) ∧
    (withResilienceWrap ⟨none, some t, some r⟩ =
      .retryWrap (r.maxAttempts.getD 3) (r.delayMs.getD 1000) (.timeoutWrap t .base)) ∧
    (withResilienceWrap ⟨some cb, none, some r⟩ =
      .retryWrap (r.maxAttempts.getD 3) (r.delayMs.getD 1000) (.breakerWrap cb .base)) ∧
    (withResilienceWrap ⟨some cb, some t, none⟩ = .timeoutWrap t (.breakerWrap cb .base)) ∧
    (withResilienceWrap ⟨none, none, none⟩ = .base) ∧
    (∀ (α : Type) (env : Env α) (fuel : Nat) (st : RunSt),
      runW env (fuel + 1) (withResilienceWrap ⟨none, none, none⟩) st =
        some (baseStep env st)) := by
  refine ⟨?_, ?_, ?_, ?_, rfl, fun α env fuel st => rfl⟩ <;>
    simp [withResilienceWrap, ht]

/-- Witness for C2: the full configuration (breaker threshold 2 / timeout
1000, timeout layer 100, default retry) builds exactly
retry(timeout(breaker(base))). -/
theorem withResilience_fixed_order_and_passthrough_witness :
    withResilienceWrap ⟨some ⟨2, 1000, 500⟩, some 100, some ⟨none, none, none⟩⟩ =
      .retryWrap 3 1000 (.timeoutWrap 100 (.breakerWrap ⟨2, 1000, 500⟩ .base)) := by
  exact (withResilience_fixed_order_and_passthrough ⟨2, 1000, 500⟩ 100 ⟨none, none, none⟩
    (by decide)).1

end PlaywrightHelpers
